import Mathlib

/-!
Shallow embedding of the rubberduck-mcp message broker core
(`src/broker/message-router.ts`, `src/broker/message-broker.ts`) and the
client session layer (`BrokerClient`).  JavaScript `Map` objects are
modelled as association lists kept in insertion order: `set` on a fresh
key appends, `set` on a present key updates in place, iteration follows
list order, exactly as in V8.
-/

/-! ### Association-list model of a JavaScript `Map` -/

def mapGet {α : Type} (m : List (String × α)) (k : String) : Option α :=
  match m with
  | [] => none
  | (k', v) :: rest => if k' = k then some v else mapGet rest k

def mapSet {α : Type} (m : List (String × α)) (k : String) (v : α) :
    List (String × α) :=
  match m with
  | [] => [(k, v)]
  | (k', v') :: rest =>
    if k' = k then (k', v) :: rest else (k', v') :: mapSet rest k v

def mapDelete {α : Type} (m : List (String × α)) (k : String) :
    List (String × α) :=
  match m with
  | [] => []
  | (k', v) :: rest => if k' = k then mapDelete rest k else (k', v) :: mapDelete rest k

def mapHas {α : Type} (m : List (String × α)) (k : String) : Bool :=
  (mapGet m k).isSome

/-! ### Core data model (`src/types/index.ts`, `src/broker/types.ts`) -/

inductive ClientType where
  | mcpServer
  | cli
deriving Repr, DecidableEq

structure ClarificationRequest where
  id : String
  question : String
  context : Option String := none
  urgency : String := "low"
  timestamp : Int := 0
  status : String := "pending"
  response : Option String := none
  sourceClientId : Option String := none
deriving Repr, DecidableEq

structure YapMessage where
  id : String
  message : String
  mode : String := "concise"
  category : String := "neutral"
  task_context : Option String := none
  timestamp : Int := 0
  sourceClientId : Option String := none
deriving Repr, DecidableEq

inductive MsgData where
  | empty
  | clarificationData (c : ClarificationRequest)
  | yapData (y : YapMessage)
  | responseData (requestId : String) (response : Option String)
      (error : Option String) (cliId : Option String)
  | syncData (status : String)
  | errorData (err : String)
deriving Repr, DecidableEq

/-- The `message.data as ClarificationRequest` cast used by the broker. -/
def MsgData.asClarification : MsgData → ClarificationRequest
  | MsgData.clarificationData c => c
  | _ => { id := "", question := "" }

/-- The `message.data as YapMessage` cast used by the broker. -/
def MsgData.asYap : MsgData → YapMessage
  | MsgData.yapData y => y
  | _ => { id := "", message := "" }

/-- The `const \x7brequestId, response\x7d = message.data` destructuring. -/
def MsgData.asResponsePair : MsgData → String × Option String
  | MsgData.responseData r resp _ _ => (r, resp)
  | _ => ("", none)

structure BrokerMessage where
  id : String
  type : String
  clientId : String
  clientType : ClientType
  timestamp : Int
  data : MsgData
deriving Repr, DecidableEq

structure ClientInfo where
  id : String
  type : ClientType
  lastSeen : Int
deriving Repr, DecidableEq

structure YapBuffer where
  messages : List YapMessage
  lastFlush : Int
deriving Repr, DecidableEq

/-! ### Router state (`MessageRouter` fields) -/

structure RouterState where
  clarificationQueues : List (String × List ClarificationRequest)
  yapBuffers : List (String × YapBuffer)
  yapFlushTimers : List (String × Nat)
  yapBufferMs : Nat := 200
  maxClarificationQueue : Nat := 10
deriving Repr, DecidableEq

inductive RouterEvent where
  | processClarificationQueue (cliId : String)
  | clarificationActive (cliId : String) (c : ClarificationRequest)
  | flushYaps (cliId : String) (ys : List YapMessage)
  | clarificationResponse (requestId : String) (resp : Option String) (cliId : String)
  | clarificationsTimeout (cliId : String) (cs : List ClarificationRequest)
deriving Repr, DecidableEq

/-! ### Client reconnect scheduler (`BrokerClient.scheduleReconnect`) -/

structure BrokerClientState where
  reconnectAttempts : Nat
  reconnectDelay : Nat
  maxReconnectAttempts : Nat
deriving Repr, DecidableEq

inductive ReconnectOutcome where
  | scheduled (delayMs : Nat)
  | maxReconnectAttemptsReached
deriving Repr, DecidableEq

/-- The `DEFAULT_CONFIG.reconnectDelay` of `BrokerClient`. -/
def defaultReconnectDelay : Nat := 1000

/-- The `DEFAULT_CONFIG.maxReconnectAttempts` of `BrokerClient`. -/
def defaultMaxReconnectAttempts : Nat := 10

/-- Model of `BrokerClient.scheduleReconnect`: if the attempt counter has reached the
cap, emit `maxReconnectAttemptsReached` and schedule nothing; otherwise
schedule a reconnect after `reconnectDelay * 2 ^ reconnectAttempts`
milliseconds and increment the counter. -/
def scheduleReconnect (s : BrokerClientState) :
    BrokerClientState × ReconnectOutcome :=
  if s.maxReconnectAttempts ≤ s.reconnectAttempts then
    (s, ReconnectOutcome.maxReconnectAttemptsReached)
  else
    ({ s with reconnectAttempts := s.reconnectAttempts + 1 },
     ReconnectOutcome.scheduled (s.reconnectDelay * 2 ^ s.reconnectAttempts))

/-- State after a fresh connection: `reconnectAttempts` is reset to 0. -/
def initialReconnectState (base cap : Nat) : BrokerClientState :=
  { reconnectAttempts := 0, reconnectDelay := base, maxReconnectAttempts := cap }

/-- Iterate `scheduleReconnect`, keeping only the state. -/
def iterScheduleReconnect (s : BrokerClientState) : Nat → BrokerClientState
  | 0 => s
  | n + 1 => (scheduleReconnect (iterScheduleReconnect s n)).1

/-! ### Router operations (`MessageRouter`) -/

/-- Model of `MessageRouter.selectTargetCli`: among the clients of type `cli`, pick the
first one whose clarification queue is strictly shorter than every earlier
candidate (`queueLength < shortestQueue`, starting from `Infinity`). -/
def selectTargetCli (queues : List (String × List ClarificationRequest))
    (availableClients : List (String × ClientInfo)) : Option String :=
  let cliClients := availableClients.filter (fun p => p.2.type = ClientType.cli)
  let result := cliClients.foldl
    (fun (acc : Option String × Option Nat) p =>
      let queueLength := ((mapGet queues p.1).getD []).length
      match acc.2 with
      | none => (some p.1, some queueLength)
      | some shortest =>
        if queueLength < shortest then (some p.1, some queueLength) else acc)
    (none, none)
  result.1

/-- Model of `MessageRouter.routeClarification`: select a target CLI, ensure its queue
exists, reject when the queue is at `maxClarificationQueue`, otherwise push
the clarification enriched with `sourceClientId` and emit
`processClarificationQueue`.  Returns the target id, or `null`. -/
def routeClarification (r : RouterState) (clarification : ClarificationRequest)
    (sourceClientId : String) (availableClients : List (String × ClientInfo)) :
    Option String × RouterState × List RouterEvent :=
  match selectTargetCli r.clarificationQueues availableClients with
  | none => (none, r, [])
  | some targetCliId =>
    let queues0 :=
      if mapHas r.clarificationQueues targetCliId then r.clarificationQueues
      else mapSet r.clarificationQueues targetCliId []
    let queue := (mapGet queues0 targetCliId).getD []
    if r.maxClarificationQueue ≤ queue.length then
      (none, { r with clarificationQueues := queues0 }, [])
    else
      let enriched := { clarification with sourceClientId := some sourceClientId }
      (some targetCliId,
       { r with clarificationQueues := mapSet queues0 targetCliId (queue ++ [enriched]) },
       [RouterEvent.processClarificationQueue targetCliId])

/-- Model of `MessageRouter.processNextClarification`: pop the head of the queue when
it is non-empty and emit `clarificationActive`; return `null` otherwise. -/
def processNextClarification (r : RouterState) (cliId : String) :
    Option ClarificationRequest × RouterState × List RouterEvent :=
  match mapGet r.clarificationQueues cliId with
  | none => (none, r, [])
  | some [] => (none, r, [])
  | some (c :: rest) =>
    (some c,
     { r with clarificationQueues := mapSet r.clarificationQueues cliId rest },
     [RouterEvent.clarificationActive cliId c])

/-- Model of `MessageRouter.handleClarificationResponse`: remove the first entry with
matching `id` from the first queue that contains one, then emit
`clarificationResponse` and `processClarificationQueue`. -/
def removeFirstById (queue : List ClarificationRequest) (requestId : String) :
    List ClarificationRequest :=
  match queue with
  | [] => []
  | c :: rest =>
    if c.id = requestId then rest else c :: removeFirstById rest requestId

def removeRequestFromQueues
    (queues : List (String × List ClarificationRequest)) (requestId : String) :
    List (String × List ClarificationRequest) :=
  match queues with
  | [] => []
  | (cliId, queue) :: rest =>
    if queue.any (fun c => c.id = requestId) then
      (cliId, removeFirstById queue requestId) :: rest
    else
      (cliId, queue) :: removeRequestFromQueues rest requestId

def handleClarificationResponse (r : RouterState) (requestId : String)
    (response : Option String) (cliId : String) :
    RouterState × List RouterEvent :=
  ({ r with clarificationQueues := removeRequestFromQueues r.clarificationQueues requestId },
   [RouterEvent.clarificationResponse requestId response cliId,
    RouterEvent.processClarificationQueue cliId])

/-! #### Yap reorder buffer -/

/-- Ordering used by `buffer.messages.sort((a, b) => a.timestamp - b.timestamp)`. -/
def yapTsLe (a b : YapMessage) : Prop := a.timestamp ≤ b.timestamp

instance : DecidableRel yapTsLe :=
  fun a b => inferInstanceAs (Decidable (a.timestamp ≤ b.timestamp))

instance : IsTotal YapMessage yapTsLe :=
  ⟨fun a b => Int.le_total a.timestamp b.timestamp⟩

instance : IsTrans YapMessage yapTsLe :=
  ⟨fun _ _ _ h1 h2 => le_trans h1 h2⟩

/-- The `buffer.messages.sort((a, b) => a.timestamp - b.timestamp)` call:
a stable ascending sort by producer timestamp (ECMAScript `sort` is stable). -/
def sortYapsByTs (l : List YapMessage) : List YapMessage :=
  l.insertionSort yapTsLe

/-- The cap in `bufferYap`: `if (messages.length > 50) messages = messages.slice(-50)`. -/
def capYapMessages (l : List YapMessage) : List YapMessage :=
  if 50 < l.length then l.drop (l.length - 50) else l

/-- Model of `MessageRouter.bufferYap`: initialize the buffer if missing, push the yap,
sort by timestamp, cap at 50 keeping the newest, and (re)arm the flush timer
for `yapBufferMs`. -/
def bufferYap (r : RouterState) (cliId : String) (yap : YapMessage) (now : Int) :
    RouterState :=
  let buffer := (mapGet r.yapBuffers cliId).getD { messages := [], lastFlush := now }
  let sorted := sortYapsByTs (buffer.messages ++ [yap])
  let capped := capYapMessages sorted
  { r with
    yapBuffers := mapSet r.yapBuffers cliId { buffer with messages := capped },
    yapFlushTimers := mapSet r.yapFlushTimers cliId r.yapBufferMs }

/-- Model of `MessageRouter.flushYapBuffer`: on an empty or missing buffer do nothing;
otherwise emit `flushYaps` with the whole buffer, empty it, record
`lastFlush`, and clear the timer. -/
def flushYapBuffer (r : RouterState) (cliId : String) (now : Int) :
    RouterState × List RouterEvent :=
  match mapGet r.yapBuffers cliId with
  | none => (r, [])
  | some buffer =>
    if buffer.messages.isEmpty then (r, [])
    else
      ({ r with
         yapBuffers := mapSet r.yapBuffers cliId { messages := [], lastFlush := now },
         yapFlushTimers := mapDelete r.yapFlushTimers cliId },
       [RouterEvent.flushYaps cliId buffer.messages])

/-- Model of `MessageRouter.routeYap`: enrich the yap with `sourceClientId` and buffer
it for every client of type `cli`, in registration order. -/
def routeYap (r : RouterState) (yap : YapMessage) (sourceClientId : String)
    (availableClients : List (String × ClientInfo)) (now : Int) : RouterState :=
  let enriched := { yap with sourceClientId := some sourceClientId }
  let cliClients := availableClients.filter (fun p => p.2.type = ClientType.cli)
  cliClients.foldl (fun acc p => bufferYap acc p.1 enriched now) r

/-! #### Session teardown (`removeClient`, `redistributeClarifications`) -/

/-- The in-place mutation applied to a clarification whose source client
disconnected. -/
def markDisconnected (c : ClarificationRequest) : ClarificationRequest :=
  { c with status := "timeout", response := some "Source client disconnected" }

/-- Model of `MessageRouter.redistributeClarifications`: walk every queue; entries whose
`sourceClientId` is the disconnected client are marked in place (the queue
aliases the same objects) and reported in one `clarificationsTimeout` event
per affected queue.  Entries are not removed. -/
def redistributeClarifications
    (queues : List (String × List ClarificationRequest)) (disconnectedClientId : String) :
    List (String × List ClarificationRequest) × List RouterEvent :=
  let mark := fun (q : List ClarificationRequest) =>
    q.map (fun c =>
      if c.sourceClientId = some disconnectedClientId then markDisconnected c else c)
  let affectedOf := fun (q : List ClarificationRequest) =>
    q.filter (fun c => c.sourceClientId = some disconnectedClientId)
  (queues.map (fun p => (p.1, mark p.2)),
   queues.filterMap (fun p =>
     if (affectedOf p.2).isEmpty then none
     else some (RouterEvent.clarificationsTimeout p.1 ((affectedOf p.2).map markDisconnected))))

/-- Model of `MessageRouter.removeClient`: drop the client's own queue, yap buffer and
flush timer, then run `redistributeClarifications` over the remaining queues. -/
def removeClient (r : RouterState) (clientId : String) :
    RouterState × List RouterEvent :=
  let queues1 := mapDelete r.clarificationQueues clientId
  ({ r with
     clarificationQueues := (redistributeClarifications queues1 clientId).1,
     yapBuffers := mapDelete r.yapBuffers clientId,
     yapFlushTimers := mapDelete r.yapFlushTimers clientId },
   (redistributeClarifications queues1 clientId).2)

/-! ### Broker server (`MessageBroker`) -/

structure BrokerState where
  clients : List (String × ClientInfo)
  router : RouterState
deriving Repr, DecidableEq

inductive BrokerOutput where
  | sendMsg (clientId : String) (m : BrokerMessage)
  | rawError (err : String)
  | closeConn
  | clientDisconnectedEvent (clientId : String) (t : ClientType)
deriving Repr, DecidableEq

/-- An envelope authored by the broker (`clientId: 'broker'`).  The `uuidv4()`
envelope id is replaced by a fixed placeholder: no claim concerns it. -/
def brokerEnvelope (t : String) (now : Int) (d : MsgData) : BrokerMessage :=
  { id := "uuid", type := t, clientId := "broker",
    clientType := ClientType.mcpServer, timestamp := now, data := d }

/-- The `sync` envelope sent on registration: `data = \x7bstatus: 'registered'\x7d`. -/
def syncEnvelope (now : Int) : BrokerMessage :=
  brokerEnvelope "sync" now (MsgData.syncData "registered")

/-- The `clarification` envelope delivered to a CLI. -/
def clarificationEnvelope (now : Int) (c : ClarificationRequest) : BrokerMessage :=
  brokerEnvelope "clarification" now (MsgData.clarificationData c)

/-- The `yap` envelope delivered to a CLI. -/
def yapEnvelope (now : Int) (y : YapMessage) : BrokerMessage :=
  brokerEnvelope "yap" now (MsgData.yapData y)

/-- Model of `MessageBroker.sendToClient`: write the envelope if the client is in the
registry (its socket is owned by the session and assumed open here). -/
def sendToClient (clients : List (String × ClientInfo)) (clientId : String)
    (m : BrokerMessage) : List BrokerOutput :=
  match mapGet clients clientId with
  | some _ => [BrokerOutput.sendMsg clientId m]
  | none => []

/-- Model of `MessageBroker.sendToCli`: deliver only when the registered client has
type `cli`. -/
def sendToCli (clients : List (String × ClientInfo)) (cliId : String)
    (m : BrokerMessage) : List BrokerOutput :=
  match mapGet clients cliId with
  | some c => if c.type = ClientType.cli then sendToClient clients cliId m else []
  | none => []

/-- Model of `MessageBroker.broadcastToMcpServers`: send to every registered client of
type `mcp-server`, in registration order. -/
def broadcastToMcpServers (clients : List (String × ClientInfo))
    (m : BrokerMessage) : List BrokerOutput :=
  (clients.filter (fun p => p.2.type = ClientType.mcpServer)).map
    (fun p => BrokerOutput.sendMsg p.1 m)

/-- Model of `MessageBroker.processNextClarificationForCli` together with the
`clarificationActive` listener: pop the queue head and, when one exists,
deliver it to the CLI in a `clarification` envelope. -/
def processNextClarificationForCli (st : BrokerState) (cliId : String) (now : Int) :
    BrokerState × List BrokerOutput :=
  match processNextClarification st.router cliId with
  | (some c, r', _) =>
    ({ st with router := r' }, sendToCli st.clients cliId (clarificationEnvelope now c))
  | (none, r', _) => ({ st with router := r' }, [])

/-- Model of `MessageBroker.handleClientRegistration`: unconditionally store a fresh
`ClientInfo` under the client id, confirm with one `sync` envelope, and, for a
CLI, immediately try to deliver a pending clarification. -/
def handleClientRegistration (st : BrokerState) (now : Int) (m : BrokerMessage) :
    BrokerState × List BrokerOutput :=
  let clientInfo : ClientInfo := { id := m.clientId, type := m.clientType, lastSeen := now }
  let st1 : BrokerState := { st with clients := mapSet st.clients m.clientId clientInfo }
  let outs1 := sendToClient st1.clients m.clientId (syncEnvelope now)
  if m.clientType = ClientType.cli then
    ((processNextClarificationForCli st1 m.clientId now).1,
     outs1 ++ (processNextClarificationForCli st1 m.clientId now).2)
  else
    (st1, outs1)

/-- The `response` envelope the broker synthesizes toward a producer when
routing fails (`\x7brequestId, response: null, error\x7d`). -/
def failureResponseEnvelope (now : Int) (requestId : String) (error : String) :
    BrokerMessage :=
  brokerEnvelope "response" now (MsgData.responseData requestId none (some error) none)

/-- Model of `MessageBroker.handleClarificationMessage` together with the synchronous
`processClarificationQueue` listener: route the clarification; on success the
queue is advanced at once; on failure (`null` target) a `response` envelope
with error `'No CLI clients available'` goes back to the source producer. -/
def handleClarificationMessage (st : BrokerState) (now : Int) (m : BrokerMessage) :
    BrokerState × List BrokerOutput :=
  match routeClarification st.router m.data.asClarification m.clientId st.clients with
  | (some targetCliId, r', _) =>
    processNextClarificationForCli { st with router := r' } targetCliId now
  | (none, r', _) =>
    ({ st with router := r' },
     sendToClient st.clients m.clientId
       (failureResponseEnvelope now m.data.asClarification.id "No CLI clients available"))

/-- Model of `MessageBroker.handleYapMessage`: hand the yap to the router, which
buffers it for every CLI client. -/
def handleYapMessage (st : BrokerState) (now : Int) (m : BrokerMessage) :
    BrokerState × List BrokerOutput :=
  ({ st with router := routeYap st.router m.data.asYap m.clientId st.clients now }, [])

/-- Model of `MessageBroker.handleResponseMessage` together with the
`clarificationResponse` and `processClarificationQueue` listeners: clean the
request out of the queues, broadcast the `response` envelope to every
mcp-server, then advance the answering CLI's queue. -/
def handleResponseMessage (st : BrokerState) (now : Int) (m : BrokerMessage) :
    BrokerState × List BrokerOutput :=
  let pair := m.data.asResponsePair
  let st1 : BrokerState :=
    { st with router := (handleClarificationResponse st.router pair.1 pair.2 m.clientId).1 }
  let outs1 := broadcastToMcpServers st1.clients
    { brokerEnvelope "response" now
        (MsgData.responseData pair.1 pair.2 none (some m.clientId)) with
      clientId := m.clientId, clientType := ClientType.cli }
  ((processNextClarificationForCli st1 m.clientId now).1,
   outs1 ++ (processNextClarificationForCli st1 m.clientId now).2)

/-- Model of `MessageBroker.handleHeartbeat`: refresh `lastSeen` when the client is
registered. -/
def handleHeartbeat (st : BrokerState) (now : Int) (m : BrokerMessage) :
    BrokerState × List BrokerOutput :=
  ({ st with
     clients := st.clients.map (fun p =>
       if p.1 = m.clientId then (p.1, { p.2 with lastSeen := now }) else p) }, [])

/-- Model of `MessageBroker.handleMessage`: the per-envelope dispatch switch. -/
def handleMessage (st : BrokerState) (now : Int) (m : BrokerMessage) :
    BrokerState × List BrokerOutput :=
  if m.type = "register" then handleClientRegistration st now m
  else if m.type = "clarification" then handleClarificationMessage st now m
  else if m.type = "yap" then handleYapMessage st now m
  else if m.type = "response" then handleResponseMessage st now m
  else if m.type = "heartbeat" then handleHeartbeat st now m
  else (st, [])

/-- The `clarificationsTimeout` listener: for each reported clarification,
send the CLI a `clarification` envelope whose payload re-asserts
`status: 'timeout'`. -/
def timeoutEventSends (clients : List (String × ClientInfo)) (now : Int) :
    RouterEvent → List BrokerOutput
  | RouterEvent.clarificationsTimeout cliId cs =>
    (cs.map (fun c =>
      sendToCli clients cliId (clarificationEnvelope now { c with status := "timeout" }))).flatten
  | _ => []

/-- Model of `MessageBroker.handleClientDisconnect`: a no-op when the id is not in the
registry; otherwise remove the session, clean the router (which reports
timed-out clarifications, forwarded to their CLIs), and emit
`clientDisconnected`. -/
def handleClientDisconnect (st : BrokerState) (clientId : String) (now : Int) :
    BrokerState × List BrokerOutput :=
  match mapGet st.clients clientId with
  | none => (st, [])
  | some client =>
    let st' : BrokerState :=
      { clients := mapDelete st.clients clientId,
        router := (removeClient st.router clientId).1 }
    (st',
     ((removeClient st.router clientId).2.map (timeoutEventSends st'.clients now)).flatten ++
       [BrokerOutput.clientDisconnectedEvent clientId client.type])

/-- The yap flush timer firing for one CLI: flush the router buffer and send
each flushed yap as its own `yap` envelope, in buffer order. -/
def fireYapFlushTimer (st : BrokerState) (cliId : String) (now : Int) :
    BrokerState × List BrokerOutput :=
  match flushYapBuffer st.router cliId now with
  | (r', [RouterEvent.flushYaps cid ys]) =>
    ({ st with router := r' },
     (ys.map (fun y => sendToCli st.clients cid (yapEnvelope now y))).flatten)
  | (r', _) => ({ st with router := r' }, [])

/-- Feed a list of inbound envelopes through `handleMessage`, accumulating
outputs, all at one receipt time. -/
def runMessages (st : BrokerState) (now : Int) :
    List BrokerMessage → BrokerState × List BrokerOutput
  | [] => (st, [])
  | m :: rest =>
    ((runMessages (handleMessage st now m).1 now rest).1,
     (handleMessage st now m).2 ++ (runMessages (handleMessage st now m).1 now rest).2)

/-! ### Wire codec: `JSON.parse` model and the two receive paths -/

inductive Json where
  | jnull
  | jbool (b : Bool)
  | jnum (n : Int)
  | jstr (s : String)
  | jarr (xs : List Json)
  | jobj (fields : List (String × Json))
deriving Repr

def jsonQuote : Char := Char.ofNat 34
def jsonOpenBrace : Char := Char.ofNat 123
def jsonCloseBrace : Char := Char.ofNat 125
def jsonBackslash : Char := Char.ofNat 92

def isJsonWs (c : Char) : Bool :=
  c = ' ' || c = '\t' || c = '\n' || c = '\r'

def skipJsonWs : List Char → List Char
  | [] => []
  | c :: cs => if isJsonWs c then skipJsonWs cs else c :: cs

/-- Parse the body of a JSON string literal (opening quote consumed). -/
def parseJsonStrChars : List Char → Option (List Char × List Char)
  | [] => none
  | c :: cs =>
    if c = jsonQuote then some ([], cs)
    else if c = jsonBackslash then
      match cs with
      | [] => none
      | e :: rest =>
        let ec := if e = 'n' then '\n' else if e = 't' then '\t' else e
        match parseJsonStrChars rest with
        | some (chs, r) => some (ec :: chs, r)
        | none => none
    else
      match parseJsonStrChars cs with
      | some (chs, r) => some (c :: chs, r)
      | none => none

def parseJsonDigits : List Char → Option (Nat × List Char)
  | [] => none
  | c :: cs =>
    if c.isDigit then
      let rec go (acc : Nat) : List Char → Nat × List Char
        | [] => (acc, [])
        | d :: ds => if d.isDigit then go (acc * 10 + (d.toNat - 48)) ds else (acc, d :: ds)
      some (go (c.toNat - 48) cs)
    else none

def expectJsonChars : List Char → List Char → Option (List Char)
  | [], rest => some rest
  | _ :: _, [] => none
  | e :: es, c :: cs => if c = e then expectJsonChars es cs else none

mutual

def parseJsonValue : Nat → List Char → Option (Json × List Char)
  | 0, _ => none
  | fuel + 1, input =>
    match skipJsonWs input with
    | [] => none
    | c :: cs =>
      if c = jsonQuote then
        match parseJsonStrChars cs with
        | some (chs, r) => some (Json.jstr (String.mk chs), r)
        | none => none
      else if c = jsonOpenBrace then
        match skipJsonWs cs with
        | [] => none
        | d :: ds =>
          if d = jsonCloseBrace then some (Json.jobj [], ds)
          else
            match parseJsonFields fuel (d :: ds) with
            | some (fs, r) => some (Json.jobj fs, r)
            | none => none
      else if c = '[' then
        match skipJsonWs cs with
        | [] => none
        | d :: ds =>
          if d = ']' then some (Json.jarr [], ds)
          else
            match parseJsonItems fuel (d :: ds) with
            | some (xs, r) => some (Json.jarr xs, r)
            | none => none
      else if c = 't' then
        (expectJsonChars ['r', 'u', 'e'] cs).map (fun r => (Json.jbool true, r))
      else if c = 'f' then
        (expectJsonChars ['a', 'l', 's', 'e'] cs).map (fun r => (Json.jbool false, r))
      else if c = 'n' then
        (expectJsonChars ['u', 'l', 'l'] cs).map (fun r => (Json.jnull, r))
      else if c = '-' then
        match parseJsonDigits cs with
        | some (n, r) => some (Json.jnum (-(n : Int)), r)
        | none => none
      else if c.isDigit then
        match parseJsonDigits (c :: cs) with
        | some (n, r) => some (Json.jnum (n : Int), r)
        | none => none
      else none

def parseJsonFields : Nat → List Char → Option (List (String × Json) × List Char)
  | 0, _ => none
  | fuel + 1, input =>
    match skipJsonWs input with
    | [] => none
    | c :: cs =>
      if c = jsonQuote then
        match parseJsonStrChars cs with
        | some (keyChars, r1) =>
          match skipJsonWs r1 with
          | ':' :: r2 =>
            match parseJsonValue fuel r2 with
            | some (v, r3) =>
              (match skipJsonWs r3 with
               | ',' :: r4 =>
                 match parseJsonFields fuel r4 with
                 | some (fs, r5) => some ((String.mk keyChars, v) :: fs, r5)
                 | none => none
               | d :: r4 =>
                 if d = jsonCloseBrace then some ([(String.mk keyChars, v)], r4)
                 else none
               | [] => none)
            | none => none
          | _ => none
        | none => none
      else none

def parseJsonItems : Nat → List Char → Option (List Json × List Char)
  | 0, _ => none
  | fuel + 1, input =>
    match parseJsonValue fuel input with
    | some (v, r1) =>
      (match skipJsonWs r1 with
       | ',' :: r2 =>
         match parseJsonItems fuel r2 with
         | some (xs, r3) => some (v :: xs, r3)
         | none => none
       | ']' :: r2 => some ([v], r2)
       | _ => none)
    | none => none

end

/-- Model of `JSON.parse`: one JSON document, surrounding whitespace allowed, nothing
else in the input. -/
def jsonParse (s : String) : Option Json :=
  match parseJsonValue (s.length + 1) s.data with
  | some (v, rest) => if (skipJsonWs rest).isEmpty then some v else none
  | none => none

inductive ChunkOutcome where
  | parsed (j : Json)
  | invalidFormatError
deriving Repr

/-- The broker's `socket.on('data')` path (`handleNewConnection`): the whole
chunk is given to `JSON.parse`; on failure an `error` envelope with
`'Invalid message format'` is sent.  There is no byte buffer and no newline
split on this side. -/
def brokerOnData (chunk : String) : ChunkOutcome :=
  match jsonParse chunk with
  | some j => ChunkOutcome.parsed j
  | none => ChunkOutcome.invalidFormatError

/-- The ECMAScript `string.split('\n')` on a character list. -/
def splitOnNewline : List Char → List (List Char)
  | [] => [[]]
  | c :: cs =>
    if c = '\n' then [] :: splitOnNewline cs
    else
      match splitOnNewline cs with
      | [] => [[c]]
      | g :: gs => (c :: g) :: gs

/-- Truthiness of `line.trim()`: the line holds a non-whitespace character. -/
def lineHasContent (l : List Char) : Bool :=
  l.any (fun c => !isJsonWs c)

/-- Model of `BrokerClient.handleData`: append the chunk to the retained buffer, split
on newlines, keep the trailing fragment, parse every line whose trim is
non-empty (a `none` records a logged parse failure). -/
def clientHandleData (buffer chunk : String) : String × List (Option Json) :=
  let lines := splitOnNewline (buffer.data ++ chunk.data)
  (String.mk (lines.getLastD []),
   (lines.dropLast.filter lineHasContent).map (fun l => jsonParse (String.mk l)))

/-! ### Concrete fixtures used by the claim theorems -/

def routerInit : RouterState :=
  { clarificationQueues := [], yapBuffers := [], yapFlushTimers := [] }

def exClarA : ClarificationRequest := { id := "q1", question := "a?", timestamp := 1000 }

def exClarB : ClarificationRequest := { id := "q2", question := "b?", timestamp := 1001 }

def mkClarificationMsg (pid : String) (c : ClarificationRequest) : BrokerMessage :=
  { id := "m", type := "clarification", clientId := pid,
    clientType := ClientType.mcpServer, timestamp := c.timestamp,
    data := MsgData.clarificationData c }

/-- One producer `p1` and one consumer `c1`, both registered, empty router. -/
def stProducerAndCli : BrokerState :=
  { clients := [("p1", { id := "p1", type := ClientType.mcpServer, lastSeen := 1000 }),
                ("c1", { id := "c1", type := ClientType.cli, lastSeen := 1000 })],
    router := routerInit }

/-- Two consumers `c1`, `c2` with empty queues and a producer `p1`. -/
def stTwoClis : BrokerState :=
  { clients := [("c1", { id := "c1", type := ClientType.cli, lastSeen := 1000 }),
                ("c2", { id := "c2", type := ClientType.cli, lastSeen := 1000 }),
                ("p1", { id := "p1", type := ClientType.mcpServer, lastSeen := 1000 })],
    router := routerInit }

/-- Ten queued clarifications: `maxClarificationQueue` is reached. -/
def fullQueueTen : List ClarificationRequest :=
  (List.range 10).map (fun i =>
    { id := toString i, question := "x", sourceClientId := some "p0" })

def stFullQueue : BrokerState :=
  { clients := [("c1", { id := "c1", type := ClientType.cli, lastSeen := 1000 }),
                ("p1", { id := "p1", type := ClientType.mcpServer, lastSeen := 1000 })],
    router := { routerInit with clarificationQueues := [("c1", fullQueueTen)] } }

/-- A live session registered under id `a`. -/
def stDupReg : BrokerState :=
  { clients := [("a", { id := "a", type := ClientType.mcpServer, lastSeen := 50 })],
    router := routerInit }

def regDupMsg : BrokerMessage :=
  { id := "m", type := "register", clientId := "a", clientType := ClientType.cli,
    timestamp := 100, data := MsgData.empty }

def exClarP1 : ClarificationRequest :=
  { id := "q1", question := "a?", sourceClientId := some "p1" }

def exClarP2 : ClarificationRequest :=
  { id := "q2", question := "b?", sourceClientId := some "p2" }

/-- Consumer `c1` hosting one request from `p1` and one from `p2`. -/
def stTeardown : BrokerState :=
  { clients := [("c1", { id := "c1", type := ClientType.cli, lastSeen := 0 }),
                ("p1", { id := "p1", type := ClientType.mcpServer, lastSeen := 0 }),
                ("p2", { id := "p2", type := ClientType.mcpServer, lastSeen := 0 })],
    router := { routerInit with clarificationQueues := [("c1", [exClarP1, exClarP2])] } }

/-! ### C2 — the broker side has no newline framing -/

def twoEnvelopeChunk : String :=
  "\x7b\"type\":\"heartbeat\"\x7d\n\x7b\"type\":\"register\"\x7d\n"

def heartbeatJson : Json := Json.jobj [("type", Json.jstr "heartbeat")]

def registerJson : Json := Json.jobj [("type", Json.jstr "register")]

/-! ### C7 — immediate advancing defeats the shortest-queue balancing -/

def clarificationSendCount (outs : List BrokerOutput) (cliId : String) : Nat :=
  (outs.filter (fun o =>
    match o with
    | BrokerOutput.sendMsg c m => c = cliId && m.type = "clarification"
    | _ => false)).length

def exYapA : YapMessage := { id := "y1", message := "hi", timestamp := 1000 }

/-! ### Theorems -/

theorem mapGet_mapSet_self {α : Type} (m : List (String × α)) (k : String) (v : α) :
    mapGet (mapSet m k v) k = some v := by
  induction m with
  | nil => simp [mapGet, mapSet]
  | cons p rest ih =>
    obtain ⟨k', v'⟩ := p
    by_cases h : k' = k
    · simp [mapGet, mapSet, h]
    · simp [mapGet, mapSet, h, ih]

theorem mapGet_mapSet_ne {α : Type} (m : List (String × α)) (k k' : String) (v : α)
    (h : k ≠ k') : mapGet (mapSet m k v) k' = mapGet m k' := by
  induction m with
  | nil => simp [mapGet, mapSet, h]
  | cons p rest ih =>
    obtain ⟨k₀, v₀⟩ := p
    by_cases h₀ : k₀ = k
    · subst h₀
      simp [mapGet, mapSet, h]
    · simp only [mapSet, if_neg h₀]
      by_cases h₁ : k₀ = k'
      · simp [mapGet, h₁]
      · simp [mapGet, h₁, ih]

theorem mapGet_mapDelete_self {α : Type} (m : List (String × α)) (k : String) :
    mapGet (mapDelete m k) k = none := by
  induction m with
  | nil => rfl
  | cons p rest ih =>
    obtain ⟨k', v'⟩ := p
    by_cases h : k' = k
    · simp [mapDelete, h, ih]
    · simp [mapDelete, h, mapGet, ih]

theorem mapGet_mapDelete_ne {α : Type} (m : List (String × α)) (k k' : String)
    (h : k' ≠ k) : mapGet (mapDelete m k) k' = mapGet m k' := by
  induction m with
  | nil => rfl
  | cons p rest ih =>
    obtain ⟨k₀, v₀⟩ := p
    by_cases h₀ : k₀ = k
    · rw [mapDelete, if_pos h₀, ih, mapGet,
        if_neg (fun hh : k₀ = k' => h (hh.symm.trans h₀))]
    · rw [mapDelete, if_neg h₀, mapGet, mapGet]
      by_cases h₁ : k₀ = k'
      · rw [if_pos h₁, if_pos h₁]
      · rw [if_neg h₁, if_neg h₁, ih]

theorem iterScheduleReconnect_attempts (base cap : Nat) :
    ∀ i, i ≤ cap →
      iterScheduleReconnect (initialReconnectState base cap) i =
        { reconnectAttempts := i, reconnectDelay := base, maxReconnectAttempts := cap } := by
  intro i
  induction i with
  | zero => intro _; rfl
  | succ n ih =>
    intro h
    have hn : n ≤ cap := Nat.le_of_succ_le h
    have hlt : n < cap := Nat.lt_of_succ_le h
    simp only [iterScheduleReconnect, ih hn, scheduleReconnect]
    rw [if_neg (by omega)]

/-! ### C9 — reconnect backoff -/

/-- C9: after a disconnect, the i-th scheduled reconnection attempt (from
i = 0) is delayed by exactly `reconnectDelay * 2 ^ i` milliseconds, and once
`maxReconnectAttempts` attempts have been scheduled the next trigger
schedules nothing and emits `maxReconnectAttemptsReached`; the defaults are
1000 ms and 10 attempts. -/
theorem c9_reconnect_backoff (base cap i : Nat) (h : i < cap) :
    (scheduleReconnect (iterScheduleReconnect (initialReconnectState base cap) i)).2 =
      ReconnectOutcome.scheduled (base * 2 ^ i) ∧
    (scheduleReconnect (iterScheduleReconnect (initialReconnectState base cap) cap)).2 =
      ReconnectOutcome.maxReconnectAttemptsReached ∧
    (scheduleReconnect (iterScheduleReconnect (initialReconnectState base cap) cap)).1 =
      iterScheduleReconnect (initialReconnectState base cap) cap ∧
    defaultReconnectDelay = 1000 ∧ defaultMaxReconnectAttempts = 10 := by
  refine ⟨?_, ?_, ?_, rfl, rfl⟩
  · rw [iterScheduleReconnect_attempts base cap i (le_of_lt h)]
    simp [scheduleReconnect, Nat.not_le.mpr h]
  · rw [iterScheduleReconnect_attempts base cap cap le_rfl]
    simp [scheduleReconnect]
  · rw [iterScheduleReconnect_attempts base cap cap le_rfl]
    simp [scheduleReconnect]

/-- Witness for C9 at the defaults: the fourth attempt (i = 3) is delayed by
8000 ms. -/
theorem c9_reconnect_backoff_witness :
    3 < 10 ∧
    (scheduleReconnect (iterScheduleReconnect (initialReconnectState 1000 10) 3)).2 =
      ReconnectOutcome.scheduled 8000 := by
  refine ⟨by norm_num, ?_⟩
  have h := (c9_reconnect_backoff 1000 10 3 (by norm_num)).1
  simpa using h

/-! ### C10 — idempotent teardown -/

/-- C10: `handleClientDisconnect` on an id absent from the registry changes
nothing and emits nothing, and running it twice for the same id equals
running it once (the second call is always a no-op). -/
theorem handleClientDisconnect_not_registered (st : BrokerState) (clientId : String)
    (now : Int) (h : mapGet st.clients clientId = none) :
    handleClientDisconnect st clientId now = (st, []) := by
  unfold handleClientDisconnect
  rw [h]

theorem c10_disconnect_idempotent (st : BrokerState) (clientId : String) (now : Int)
    (h : mapGet st.clients clientId = none) :
    handleClientDisconnect st clientId now = (st, []) ∧
    (∀ st2 : BrokerState,
      handleClientDisconnect (handleClientDisconnect st2 clientId now).1 clientId now =
        ((handleClientDisconnect st2 clientId now).1, [])) := by
  constructor
  · exact handleClientDisconnect_not_registered st clientId now h
  · intro st2
    cases hc : mapGet st2.clients clientId with
    | none =>
      have h1 : handleClientDisconnect st2 clientId now = (st2, []) :=
        handleClientDisconnect_not_registered st2 clientId now hc
      rw [h1]
      exact h1
    | some c =>
      have h1 : (handleClientDisconnect st2 clientId now).1.clients =
          mapDelete st2.clients clientId := by
        unfold handleClientDisconnect
        rw [hc]
      have h2 : mapGet (handleClientDisconnect st2 clientId now).1.clients clientId = none := by
        rw [h1]
        exact mapGet_mapDelete_self st2.clients clientId
      exact handleClientDisconnect_not_registered _ clientId now h2

/-- Witness for C10: disconnecting an id that was never registered is a
no-op. -/
theorem c10_disconnect_idempotent_witness :
    mapGet stProducerAndCli.clients "ghost" = none ∧
    handleClientDisconnect stProducerAndCli "ghost" 5 = (stProducerAndCli, []) :=
  ⟨rfl, (c10_disconnect_idempotent stProducerAndCli "ghost" 5 rfl).1⟩

/-! ### C1 — delivery is not gated on an active request -/

/-- C1 counterexample: with one consumer and no response in the whole run,
two consecutive clarifications are both delivered to `c1` immediately — the
second clarification envelope is sent while the first is still unanswered,
so the broker does not wait for a response before delivering the next one. -/
theorem c1_two_deliveries_counterexample :
    (runMessages stProducerAndCli 1000
        [mkClarificationMsg "p1" exClarA, mkClarificationMsg "p1" exClarB]).2 =
      [BrokerOutput.sendMsg "c1"
         (clarificationEnvelope 1000 { exClarA with sourceClientId := some "p1" }),
       BrokerOutput.sendMsg "c1"
         (clarificationEnvelope 1000 { exClarB with sourceClientId := some "p1" })] := by
  rfl

/-- C1 amended: `processNextClarification` pops and delivers the queue head
whenever the queue is non-empty, with no check for a currently active
request; it is a no-op only when the queue is empty or missing.  (The
one-at-a-time display is maintained by the consumer CLI locally, not by the
broker.) -/
theorem c1_advance_pops_whenever_nonempty (r : RouterState) (cliId : String) :
    ((mapGet r.clarificationQueues cliId).getD [] = [] →
      processNextClarification r cliId = (none, r, [])) ∧
    (∀ c rest, (mapGet r.clarificationQueues cliId).getD [] = c :: rest →
      processNextClarification r cliId =
        (some c,
         { r with clarificationQueues := mapSet r.clarificationQueues cliId rest },
         [RouterEvent.clarificationActive cliId c])) := by
  constructor
  · intro h
    unfold processNextClarification
    cases hq : mapGet r.clarificationQueues cliId with
    | none => rfl
    | some q =>
      rw [hq] at h
      simp only [Option.getD_some] at h
      subst h
      rfl
  · intro c rest h
    cases hq : mapGet r.clarificationQueues cliId with
    | none => simp [hq] at h
    | some q =>
      rw [hq] at h
      simp only [Option.getD_some] at h
      subst h
      unfold processNextClarification
      rw [hq]

/-- Witness for the amended C1: a queue holding one entry is popped and the
entry delivered even though no response has ever been processed. -/
theorem c1_advance_witness :
    (mapGet [("c1", [exClarA])] "c1").getD [] = exClarA :: [] ∧
    processNextClarification
        { routerInit with clarificationQueues := [("c1", [exClarA])] } "c1" =
      (some exClarA,
       { routerInit with clarificationQueues := mapSet [("c1", [exClarA])] "c1" [] },
       [RouterEvent.clarificationActive "c1" exClarA]) :=
  ⟨rfl,
   (c1_advance_pops_whenever_nonempty
      { routerInit with clarificationQueues := [("c1", [exClarA])] } "c1").2
     exClarA [] rfl⟩

/-- C2 evaluated at the failing input: a single TCP chunk carrying two
newline-terminated envelopes.  The client's buffered receive path parses
exactly the two envelopes (and reassembles a split envelope across chunks),
but the broker's receive path hands the whole chunk to `JSON.parse` and
produces the `'Invalid message format'` error instead of the envelope
sequence: the broker keeps no byte buffer and never splits on 0x0A. -/
theorem c2_broker_chunk_parse_eval :
    brokerOnData twoEnvelopeChunk = ChunkOutcome.invalidFormatError ∧
    clientHandleData "" twoEnvelopeChunk =
      ("", [some heartbeatJson, some registerJson]) ∧
    brokerOnData "\x7b\"type\":\"heartbeat\"\x7d" = ChunkOutcome.parsed heartbeatJson ∧
    clientHandleData "" "\x7b\"type\":\"heart" = ("\x7b\"type\":\"heart", []) ∧
    clientHandleData "\x7b\"type\":\"heart" "beat\"\x7d\n" =
      ("", [some heartbeatJson]) := by
  exact ⟨rfl, rfl, rfl, rfl, rfl⟩

/-- C7 evaluated at the failing input: two live consumers with empty queues
and two sequential clarifications.  Because each accepted clarification is
popped from the queue synchronously with its insertion, every queue length
is back to 0 at the next selection, so `selectTargetCli`'s strict-minimum
scan always picks the first consumer: `c1` receives both clarifications and
`c2` none, violating the `⌈n/k⌉ = ⌈2/2⌉ = 1` bound. -/
theorem c7_all_to_first_consumer_eval :
    clarificationSendCount
        (runMessages stTwoClis 1000
          [mkClarificationMsg "p1" exClarA, mkClarificationMsg "p1" exClarB]).2 "c1" = 2 ∧
    clarificationSendCount
        (runMessages stTwoClis 1000
          [mkClarificationMsg "p1" exClarA, mkClarificationMsg "p1" exClarB]).2 "c2" = 0 ∧
    (2 + 2 - 1) / 2 < 2 := by
  exact ⟨rfl, rfl, by norm_num⟩

/-! ### Helper lemmas about broker handlers -/

theorem sendToClient_outputs (clients : List (String × ClientInfo)) (cid : String)
    (m : BrokerMessage) :
    ∀ o ∈ sendToClient clients cid m, ∃ c mm, o = BrokerOutput.sendMsg c mm := by
  intro o ho
  unfold sendToClient at ho
  cases h : mapGet clients cid with
  | none => rw [h] at ho; simp at ho
  | some c =>
    rw [h] at ho
    simp only [List.mem_singleton] at ho
    exact ⟨cid, m, ho⟩

theorem sendToCli_outputs (clients : List (String × ClientInfo)) (cid : String)
    (m : BrokerMessage) :
    ∀ o ∈ sendToCli clients cid m, ∃ c mm, o = BrokerOutput.sendMsg c mm := by
  intro o ho
  unfold sendToCli at ho
  cases h : mapGet clients cid with
  | none => rw [h] at ho; simp at ho
  | some c =>
    rw [h] at ho
    have ho2 : o ∈ (if c.type = ClientType.cli then sendToClient clients cid m else []) := ho
    by_cases ht : c.type = ClientType.cli
    · rw [if_pos ht] at ho2
      exact sendToClient_outputs clients cid m o ho2
    · rw [if_neg ht] at ho2
      simp at ho2

theorem processNextClarificationForCli_clients (st : BrokerState) (cid : String)
    (now : Int) :
    (processNextClarificationForCli st cid now).1.clients = st.clients := by
  unfold processNextClarificationForCli
  rcases hp : processNextClarification st.router cid with ⟨res, r', evts⟩
  cases res <;> rfl

theorem processNextClarificationForCli_outputs (st : BrokerState) (cid : String)
    (now : Int) :
    ∀ o ∈ (processNextClarificationForCli st cid now).2,
      ∃ c mm, o = BrokerOutput.sendMsg c mm := by
  intro o ho
  unfold processNextClarificationForCli at ho
  rcases hp : processNextClarification st.router cid with ⟨res, r', evts⟩
  rw [hp] at ho
  cases res with
  | none => simp at ho
  | some c => exact sendToCli_outputs st.clients cid (clarificationEnvelope now c) o ho

theorem handleClarificationMessage_clients (st : BrokerState) (now : Int)
    (m : BrokerMessage) :
    (handleClarificationMessage st now m).1.clients = st.clients := by
  unfold handleClarificationMessage
  rcases hr : routeClarification st.router m.data.asClarification m.clientId st.clients
    with ⟨res, r', evts⟩
  cases res with
  | none => rfl
  | some t =>
    exact processNextClarificationForCli_clients { st with router := r' } t now

theorem handleResponseMessage_clients (st : BrokerState) (now : Int)
    (m : BrokerMessage) :
    (handleResponseMessage st now m).1.clients = st.clients := by
  unfold handleResponseMessage
  exact processNextClarificationForCli_clients _ m.clientId now

/-! ### C3 — duplicate registration overwrites the live session -/

/-- C3 counterexample: id `a` is a live mcp-server session; a second
`register` for `a` (as a CLI) is not rejected: the registry entry is
replaced by the newcomer, one `sync` envelope is emitted, and no `error`
envelope or close is produced. -/
theorem c3_overwrite_counterexample :
    handleClientRegistration stDupReg 100 regDupMsg =
      ({ clients := [("a", { id := "a", type := ClientType.cli, lastSeen := 100 })],
         router := routerInit },
       [BrokerOutput.sendMsg "a" (syncEnvelope 100)]) ∧
    mapGet stDupReg.clients "a" =
      some { id := "a", type := ClientType.mcpServer, lastSeen := 50 } ∧
    ClientType.cli ≠ ClientType.mcpServer := by
  exact ⟨rfl, rfl, by decide⟩

/-- C3 amended: a `register` envelope always stores a fresh session record
under the client id (overwriting any live one), leaves every other entry
unchanged, replies with exactly one leading `sync` envelope, and emits only
sends — never an error envelope or a close. -/
theorem c3_register_overwrites_amended (st : BrokerState) (now : Int) (m : BrokerMessage) :
    mapGet (handleClientRegistration st now m).1.clients m.clientId =
      some { id := m.clientId, type := m.clientType, lastSeen := now } ∧
    (∀ k, k ≠ m.clientId →
      mapGet (handleClientRegistration st now m).1.clients k = mapGet st.clients k) ∧
    (handleClientRegistration st now m).2.head? =
      some (BrokerOutput.sendMsg m.clientId (syncEnvelope now)) ∧
    (∀ o ∈ (handleClientRegistration st now m).2, ∃ c mm, o = BrokerOutput.sendMsg c mm) := by
  have hsync : sendToClient
      (mapSet st.clients m.clientId { id := m.clientId, type := m.clientType, lastSeen := now })
      m.clientId (syncEnvelope now) =
      [BrokerOutput.sendMsg m.clientId (syncEnvelope now)] := by
    unfold sendToClient
    rw [mapGet_mapSet_self]
  by_cases hcli : m.clientType = ClientType.cli
  · refine ⟨?_, ?_, ?_, ?_⟩
    · unfold handleClientRegistration
      rw [if_pos hcli, processNextClarificationForCli_clients]
      exact mapGet_mapSet_self st.clients m.clientId _
    · intro k hk
      unfold handleClientRegistration
      rw [if_pos hcli, processNextClarificationForCli_clients]
      exact mapGet_mapSet_ne st.clients m.clientId k _ (Ne.symm hk)
    · unfold handleClientRegistration
      rw [if_pos hcli]
      simp only [hsync]
      rfl
    · intro o ho
      unfold handleClientRegistration at ho
      rw [if_pos hcli] at ho
      simp only [hsync] at ho
      rcases List.mem_append.mp ho with h1 | h2
      · simp only [List.mem_singleton] at h1
        exact ⟨m.clientId, syncEnvelope now, h1⟩
      · exact processNextClarificationForCli_outputs _ m.clientId now o h2
  · refine ⟨?_, ?_, ?_, ?_⟩
    · unfold handleClientRegistration
      rw [if_neg hcli]
      exact mapGet_mapSet_self st.clients m.clientId _
    · intro k hk
      unfold handleClientRegistration
      rw [if_neg hcli]
      exact mapGet_mapSet_ne st.clients m.clientId k _ (Ne.symm hk)
    · unfold handleClientRegistration
      rw [if_neg hcli]
      simp only [hsync]
      rfl
    · intro o ho
      unfold handleClientRegistration at ho
      rw [if_neg hcli] at ho
      simp only [hsync] at ho
      simp only [List.mem_singleton] at ho
      exact ⟨m.clientId, syncEnvelope now, ho⟩

/-- Witness for the amended C3 at the duplicate-id input. -/
theorem c3_register_overwrites_witness :
    mapGet (handleClientRegistration stDupReg 100 regDupMsg).1.clients "a" =
      some { id := "a", type := ClientType.cli, lastSeen := 100 } ∧
    ("b" : String) ≠ "a" ∧
    mapGet (handleClientRegistration stDupReg 100 regDupMsg).1.clients "b" =
      mapGet stDupReg.clients "b" := by
  refine ⟨(c3_register_overwrites_amended stDupReg 100 regDupMsg).1, by decide, ?_⟩
  exact (c3_register_overwrites_amended stDupReg 100 regDupMsg).2.1 "b" (by decide)

/-! ### C4 — queue saturation reuses the no-consumer error text -/

/-- C4 counterexample: consumer `c1`'s queue holds `maxClarificationQueue`
(10) entries; a new clarification from `p1` is rejected with the queue left
unchanged, but the synthesized `response` carries
`error: 'No CLI clients available'`, not `'queue full'`: the two failure
cases are not distinguished. -/
theorem c4_error_text_counterexample :
    (handleClarificationMessage stFullQueue 1000 (mkClarificationMsg "p1" exClarA)).2 =
      [BrokerOutput.sendMsg "p1"
        (failureResponseEnvelope 1000 "q1" "No CLI clients available")] ∧
    (handleClarificationMessage stFullQueue 1000
        (mkClarificationMsg "p1" exClarA)).1.router.clarificationQueues =
      stFullQueue.router.clarificationQueues ∧
    ("No CLI clients available" : String) ≠ "queue full" := by
  exact ⟨rfl, rfl, by decide⟩

/-- C4 amended: when the selected consumer's queue is at capacity, the
insertion is rejected, the whole broker state (in particular that queue) is
unchanged, and the producer receives
`\x7brequestId, response: null, error: 'No CLI clients available'\x7d` — the same
error text as the no-consumer case, not `'queue full'`. -/
theorem c4_queue_full_amended (st : BrokerState) (now : Int) (m : BrokerMessage)
    (t : String)
    (hsel : selectTargetCli st.router.clarificationQueues st.clients = some t)
    (hhas : mapHas st.router.clarificationQueues t = true)
    (hfull : st.router.maxClarificationQueue ≤
      ((mapGet st.router.clarificationQueues t).getD []).length) :
    (handleClarificationMessage st now m).1 = st ∧
    (handleClarificationMessage st now m).2 =
      sendToClient st.clients m.clientId
        (failureResponseEnvelope now m.data.asClarification.id "No CLI clients available") ∧
    ("No CLI clients available" : String) ≠ "queue full" := by
  have hroute : routeClarification st.router m.data.asClarification m.clientId st.clients =
      (none, st.router, []) := by
    unfold routeClarification
    rw [hsel]
    simp only [hhas, if_true]
    rw [if_pos hfull]
  refine ⟨?_, ?_, by decide⟩
  · unfold handleClarificationMessage
    rw [hroute]
  · unfold handleClarificationMessage
    rw [hroute]

/-- Witness for the amended C4 at the full-queue input. -/
theorem c4_queue_full_amended_witness :
    selectTargetCli stFullQueue.router.clarificationQueues stFullQueue.clients = some "c1" ∧
    mapHas stFullQueue.router.clarificationQueues "c1" = true ∧
    stFullQueue.router.maxClarificationQueue ≤
      ((mapGet stFullQueue.router.clarificationQueues "c1").getD []).length ∧
    (handleClarificationMessage stFullQueue 1000 (mkClarificationMsg "p1" exClarA)).1 =
      stFullQueue := by
  refine ⟨rfl, rfl, by decide, ?_⟩
  exact (c4_queue_full_amended stFullQueue 1000 (mkClarificationMsg "p1" exClarA) "c1"
    rfl rfl (by decide)).1

/-! ### C6 — only heartbeat refreshes lastSeen -/

/-- C6 counterexample: `p1` is registered with `lastSeen = 1000`; handling a
`clarification` envelope from `p1` at receipt time 2000 leaves `lastSeen` at
1000 — inbound non-heartbeat traffic does not refresh the session. -/
theorem c6_lastseen_counterexample :
    mapGet (handleMessage stProducerAndCli 2000
        (mkClarificationMsg "p1" exClarA)).1.clients "p1" =
      some { id := "p1", type := ClientType.mcpServer, lastSeen := 1000 } ∧
    (1000 : Int) ≠ 2000 := by
  exact ⟨rfl, by decide⟩

/-- C6 amended: among registered-client traffic only `heartbeat` envelopes
refresh `lastSeen` (and `register` rewrites the whole entry); handling a
`clarification`, `yap`, `response` or unknown envelope leaves the client
registry — in particular every `lastSeen` — unchanged. -/
theorem c6_only_heartbeat_updates_lastseen (st : BrokerState) (now : Int)
    (m : BrokerMessage) (hreg : m.type ≠ "register") :
    (m.type ≠ "heartbeat" → (handleMessage st now m).1.clients = st.clients) ∧
    (m.type = "heartbeat" →
      (handleMessage st now m).1.clients =
        st.clients.map (fun p =>
          if p.1 = m.clientId then (p.1, { p.2 with lastSeen := now }) else p)) := by
  constructor
  · intro hhb
    unfold handleMessage
    rw [if_neg hreg]
    by_cases h2 : m.type = "clarification"
    · rw [if_pos h2]
      exact handleClarificationMessage_clients st now m
    rw [if_neg h2]
    by_cases h3 : m.type = "yap"
    · rw [if_pos h3]
      rfl
    rw [if_neg h3]
    by_cases h4 : m.type = "response"
    · rw [if_pos h4]
      exact handleResponseMessage_clients st now m
    rw [if_neg h4, if_neg hhb]
  · intro hhb
    unfold handleMessage
    rw [if_neg hreg,
      if_neg (fun hh : m.type = "clarification" => by rw [hhb] at hh; exact absurd hh (by decide)),
      if_neg (fun hh : m.type = "yap" => by rw [hhb] at hh; exact absurd hh (by decide)),
      if_neg (fun hh : m.type = "response" => by rw [hhb] at hh; exact absurd hh (by decide)),
      if_pos hhb]
    rfl

/-- Witness for the amended C6: a clarification envelope leaves the registry
unchanged. -/
theorem c6_only_heartbeat_witness :
    ((mkClarificationMsg "p1" exClarA).type ≠ "register") ∧
    ((mkClarificationMsg "p1" exClarA).type ≠ "heartbeat") ∧
    (handleMessage stProducerAndCli 2000 (mkClarificationMsg "p1" exClarA)).1.clients =
      stProducerAndCli.clients := by
  refine ⟨by decide, by decide, ?_⟩
  exact (c6_only_heartbeat_updates_lastseen stProducerAndCli 2000
    (mkClarificationMsg "p1" exClarA) (by decide)).1 (by decide)

/-! ### C5 — producer teardown marks but does not remove queue entries -/

theorem mapGet_map_snd {α β : Type} (m : List (String × α)) (f : α → β) (k : String) :
    mapGet (m.map (fun p => (p.1, f p.2))) k = (mapGet m k).map f := by
  induction m with
  | nil => rfl
  | cons p rest ih =>
    obtain ⟨k₀, v₀⟩ := p
    by_cases h : k₀ = k
    · simp [mapGet, h]
    · simp [mapGet, h, ih]

theorem mapGet_mem {α : Type} (m : List (String × α)) (k : String) (v : α)
    (h : mapGet m k = some v) : (k, v) ∈ m := by
  induction m with
  | nil => simp [mapGet] at h
  | cons p rest ih =>
    obtain ⟨k₀, v₀⟩ := p
    by_cases h₀ : k₀ = k
    · subst h₀
      rw [mapGet, if_pos rfl] at h
      injection h with h
      subst h
      exact List.mem_cons_self _ _
    · rw [mapGet, if_neg h₀] at h
      exact List.mem_cons_of_mem _ (ih h)

theorem sendToCli_registered (clients : List (String × ClientInfo)) (cid : String)
    (m : BrokerMessage) (cinfo : ClientInfo) (h : mapGet clients cid = some cinfo)
    (ht : cinfo.type = ClientType.cli) :
    sendToCli clients cid m = [BrokerOutput.sendMsg cid m] := by
  unfold sendToCli sendToClient
  rw [h]
  simp [ht]

/-- C5 counterexample: after `p1` (source of the queued request `q1` hosted
by consumer `c1`) disconnects, `c1`'s queue still contains the entry whose
`sourceClientId` is `p1` — it was marked `timeout` but never removed, so the
queues are not scrubbed of the lost producer. -/
theorem c5_entry_not_removed_counterexample :
    mapGet (handleClientDisconnect stTeardown "p1" 500).1.router.clarificationQueues "c1" =
      some [markDisconnected exClarP1, exClarP2] ∧
    (markDisconnected exClarP1).sourceClientId = some "p1" ∧
    (handleClientDisconnect stTeardown "p1" 500).2 =
      [BrokerOutput.sendMsg "c1" (clarificationEnvelope 500 (markDisconnected exClarP1)),
       BrokerOutput.clientDisconnectedEvent "p1" ClientType.mcpServer] := by
  exact ⟨rfl, rfl, rfl⟩

/-- C5 amended: on producer teardown every entry whose source is the lost
producer is marked in place with status `timeout` and response
`'Source client disconnected'`, and a `clarification` envelope with status
`timeout` is sent to the hosting consumer for each such entry — but the
entries stay in the consumer queues; nothing is removed. -/
theorem c5_timeout_marked_but_not_removed (st : BrokerState) (pid : String) (now : Int)
    (client : ClientInfo) (h : mapGet st.clients pid = some client) :
    (∀ cliId q, cliId ≠ pid →
      mapGet st.router.clarificationQueues cliId = some q →
      mapGet (handleClientDisconnect st pid now).1.router.clarificationQueues cliId =
        some (q.map (fun c =>
          if c.sourceClientId = some pid then markDisconnected c else c))) ∧
    (∀ c : ClarificationRequest,
      (markDisconnected c).status = "timeout" ∧
      (markDisconnected c).response = some "Source client disconnected" ∧
      (markDisconnected c).sourceClientId = c.sourceClientId) ∧
    (∀ cliId q cinfo c, cliId ≠ pid →
      mapGet st.router.clarificationQueues cliId = some q →
      mapGet st.clients cliId = some cinfo → cinfo.type = ClientType.cli →
      c ∈ q → c.sourceClientId = some pid →
      BrokerOutput.sendMsg cliId (clarificationEnvelope now (markDisconnected c)) ∈
        (handleClientDisconnect st pid now).2) := by
  have hqueues : (handleClientDisconnect st pid now).1.router.clarificationQueues =
      (mapDelete st.router.clarificationQueues pid).map (fun p =>
        (p.1, p.2.map (fun c =>
          if c.sourceClientId = some pid then markDisconnected c else c))) := by
    unfold handleClientDisconnect
    rw [h]
    rfl
  have houts : (handleClientDisconnect st pid now).2 =
      (((mapDelete st.router.clarificationQueues pid).filterMap (fun p =>
          if (p.2.filter (fun c => c.sourceClientId = some pid)).isEmpty then none
          else some (RouterEvent.clarificationsTimeout p.1
            ((p.2.filter (fun c => c.sourceClientId = some pid)).map markDisconnected)))).map
        (timeoutEventSends (mapDelete st.clients pid) now)).flatten ++
      [BrokerOutput.clientDisconnectedEvent pid client.type] := by
    unfold handleClientDisconnect
    rw [h]
    rfl
  refine ⟨?_, fun c => ⟨rfl, rfl, rfl⟩, ?_⟩
  · intro cliId q hne hq
    rw [hqueues, mapGet_map_snd, mapGet_mapDelete_ne _ _ _ hne, hq]
    rfl
  · intro cliId q cinfo c hne hq hcinfo htype hmem hsrc
    rw [houts]
    refine List.mem_append.mpr (Or.inl ?_)
    have hmemdel : (cliId, q) ∈ mapDelete st.router.clarificationQueues pid :=
      mapGet_mem _ _ _ ((mapGet_mapDelete_ne _ _ _ hne).trans hq)
    have hmemfilter : c ∈ q.filter (fun c => c.sourceClientId = some pid) :=
      List.mem_filter.mpr ⟨hmem, by simp [hsrc]⟩
    have hnonempty : (q.filter (fun c => c.sourceClientId = some pid)).isEmpty = false := by
      cases hfe : q.filter (fun c => c.sourceClientId = some pid) with
      | nil => rw [hfe] at hmemfilter; simp at hmemfilter
      | cons a l => rfl
    have hev : RouterEvent.clarificationsTimeout cliId
        ((q.filter (fun c => c.sourceClientId = some pid)).map markDisconnected) ∈
        (mapDelete st.router.clarificationQueues pid).filterMap (fun p =>
          if (p.2.filter (fun c => c.sourceClientId = some pid)).isEmpty then none
          else some (RouterEvent.clarificationsTimeout p.1
            ((p.2.filter (fun c => c.sourceClientId = some pid)).map markDisconnected))) := by
      refine List.mem_filterMap.mpr ⟨(cliId, q), hmemdel, ?_⟩
      simp only [hnonempty]
      rfl
    refine List.mem_flatten.mpr
      ⟨timeoutEventSends (mapDelete st.clients pid) now
         (RouterEvent.clarificationsTimeout cliId
           ((q.filter (fun c => c.sourceClientId = some pid)).map markDisconnected)),
       List.mem_map_of_mem _ hev, ?_⟩
    unfold timeoutEventSends
    refine List.mem_flatten.mpr
      ⟨sendToCli (mapDelete st.clients pid) cliId
         (clarificationEnvelope now (markDisconnected c)), ?_, ?_⟩
    · have : markDisconnected c ∈
          (q.filter (fun c => c.sourceClientId = some pid)).map markDisconnected :=
        List.mem_map_of_mem _ hmemfilter
      exact List.mem_map_of_mem _ this
    · rw [sendToCli_registered (mapDelete st.clients pid) cliId _ cinfo
        ((mapGet_mapDelete_ne _ _ _ hne).trans hcinfo) htype]
      exact List.mem_singleton.mpr rfl

/-- Witness for the amended C5 at the teardown fixture. -/
theorem c5_timeout_marked_witness :
    mapGet stTeardown.clients "p1" =
      some { id := "p1", type := ClientType.mcpServer, lastSeen := 0 } ∧
    ("c1" : String) ≠ "p1" ∧
    BrokerOutput.sendMsg "c1" (clarificationEnvelope 500 (markDisconnected exClarP1)) ∈
      (handleClientDisconnect stTeardown "p1" 500).2 := by
  refine ⟨rfl, by decide, ?_⟩
  exact (c5_timeout_marked_but_not_removed stTeardown "p1" 500
      { id := "p1", type := ClientType.mcpServer, lastSeen := 0 } rfl).2.2
    "c1" [exClarP1, exClarP2] { id := "c1", type := ClientType.cli, lastSeen := 0 } exClarP1
    (by decide) rfl rfl rfl (List.mem_cons_self _ _) rfl

/-! ### C8 — yap buffering, sorting, cap and flush -/

theorem sortYapsByTs_pairwise (l : List YapMessage) :
    List.Pairwise yapTsLe (sortYapsByTs l) :=
  List.sorted_insertionSort yapTsLe l

theorem sortYapsByTs_perm (l : List YapMessage) :
    List.Perm (sortYapsByTs l) l :=
  List.perm_insertionSort yapTsLe l

theorem capYapMessages_pairwise (l : List YapMessage)
    (h : List.Pairwise yapTsLe l) :
    List.Pairwise yapTsLe (capYapMessages l) := by
  unfold capYapMessages
  split
  · exact h.sublist (List.drop_sublist _ _)
  · exact h

theorem capYapMessages_length (l : List YapMessage) :
    (capYapMessages l).length ≤ 50 := by
  unfold capYapMessages
  split
  · rw [List.length_drop]
    omega
  · omega

theorem capYapMessages_drops_oldest (l : List YapMessage)
    (h : List.Pairwise yapTsLe l) :
    ∃ dropped, dropped ++ capYapMessages l = l ∧
      ∀ d ∈ dropped, ∀ k ∈ capYapMessages l, yapTsLe d k := by
  unfold capYapMessages
  split
  · refine ⟨l.take (l.length - 50), List.take_append_drop _ l, ?_⟩
    have hsplit : List.Pairwise yapTsLe (l.take (l.length - 50) ++ l.drop (l.length - 50)) := by
      rw [List.take_append_drop]
      exact h
    exact (List.pairwise_append.mp hsplit).2.2
  · exact ⟨[], by simp, by simp⟩

theorem bufferYap_self (r : RouterState) (cid : String) (y : YapMessage) (now : Int) :
    (mapGet (bufferYap r cid y now).yapBuffers cid).map YapBuffer.messages =
      some (capYapMessages (sortYapsByTs
        (((mapGet r.yapBuffers cid).getD { messages := [], lastFlush := now }).messages
          ++ [y]))) ∧
    mapGet (bufferYap r cid y now).yapFlushTimers cid = some r.yapBufferMs := by
  unfold bufferYap
  constructor
  · rw [mapGet_mapSet_self]
    rfl
  · rw [mapGet_mapSet_self]

theorem bufferYap_frame (r : RouterState) (k : String) (y : YapMessage) (now : Int)
    (cid : String) (h : k ≠ cid) :
    mapGet (bufferYap r k y now).yapBuffers cid = mapGet r.yapBuffers cid ∧
    mapGet (bufferYap r k y now).yapFlushTimers cid = mapGet r.yapFlushTimers cid := by
  unfold bufferYap
  exact ⟨mapGet_mapSet_ne _ _ _ _ h, mapGet_mapSet_ne _ _ _ _ h⟩

theorem bufferYap_ms (r : RouterState) (k : String) (y : YapMessage) (now : Int) :
    (bufferYap r k y now).yapBufferMs = r.yapBufferMs := rfl

theorem foldlBufferYap_frame (e : YapMessage) (now : Int) (cid : String) :
    ∀ (L : List (String × ClientInfo)) (r : RouterState), (∀ p ∈ L, p.1 ≠ cid) →
      mapGet (L.foldl (fun acc p => bufferYap acc p.1 e now) r).yapBuffers cid =
        mapGet r.yapBuffers cid ∧
      mapGet (L.foldl (fun acc p => bufferYap acc p.1 e now) r).yapFlushTimers cid =
        mapGet r.yapFlushTimers cid ∧
      (L.foldl (fun acc p => bufferYap acc p.1 e now) r).yapBufferMs = r.yapBufferMs := by
  intro L
  induction L with
  | nil => intro r _; exact ⟨rfl, rfl, rfl⟩
  | cons p rest ih =>
    intro r hall
    have hp : p.1 ≠ cid := hall p (List.mem_cons_self _ _)
    have hrest : ∀ q ∈ rest, q.1 ≠ cid := fun q hq => hall q (List.mem_cons_of_mem _ hq)
    simp only [List.foldl_cons]
    obtain ⟨h1, h2, h3⟩ := ih (bufferYap r p.1 e now) hrest
    obtain ⟨f1, f2⟩ := bufferYap_frame r p.1 e now cid hp
    exact ⟨h1.trans f1, h2.trans f2, h3.trans (bufferYap_ms r p.1 e now)⟩

theorem foldlBufferYap_mem (e : YapMessage) (now : Int) (cid : String) (cinfo : ClientInfo) :
    ∀ (L : List (String × ClientInfo)) (r : RouterState), (L.map Prod.fst).Nodup →
      (cid, cinfo) ∈ L →
      (mapGet (L.foldl (fun acc p => bufferYap acc p.1 e now) r).yapBuffers cid).map
          YapBuffer.messages =
        some (capYapMessages (sortYapsByTs
          (((mapGet r.yapBuffers cid).getD { messages := [], lastFlush := now }).messages
            ++ [e]))) ∧
      mapGet (L.foldl (fun acc p => bufferYap acc p.1 e now) r).yapFlushTimers cid =
        some r.yapBufferMs := by
  intro L
  induction L with
  | nil => intro r _ hmem; simp at hmem
  | cons p rest ih =>
    intro r hnd hmem
    simp only [List.map_cons, List.nodup_cons] at hnd
    obtain ⟨hnotin, hndrest⟩ := hnd
    simp only [List.foldl_cons]
    rcases List.mem_cons.mp hmem with heq | hmemrest
    · have hk : p.1 = cid := by rw [← heq]
      have hrest : ∀ q ∈ rest, q.1 ≠ cid := by
        intro q hq hqc
        apply hnotin
        rw [hk, ← hqc]
        exact List.mem_map_of_mem Prod.fst hq
      obtain ⟨g1, g2, _⟩ := foldlBufferYap_frame e now cid rest (bufferYap r p.1 e now) hrest
      constructor
      · rw [g1, hk]
        exact (bufferYap_self r cid e now).1
      · rw [g2, hk]
        exact (bufferYap_self r cid e now).2
    · have hp : p.1 ≠ cid := by
        intro hpc
        apply hnotin
        rw [hpc]
        exact List.mem_map_of_mem Prod.fst hmemrest
      obtain ⟨f1, f2⟩ := bufferYap_frame r p.1 e now cid hp
      have hres := ih (bufferYap r p.1 e now) hndrest hmemrest
      rw [f1, bufferYap_ms] at hres
      exact hres

theorem flatten_map_singleton {α β : Type} (l : List α) (g : α → β) :
    (l.map (fun a => [g a])).flatten = l.map g := by
  induction l with
  | nil => rfl
  | cons a rest ih => simp [ih]

/-- C8: on each `routeYap` the (source-enriched) yap is appended to the
buffer of every registered CLI client; each buffer is the stable ascending
timestamp sort of its previous content plus the new yap, capped at 50 by
dropping a prefix of oldest-timestamp entries, and the flush timer is
(re)armed for `yapBufferMs`.  When the flush timer fires on a non-empty
buffer, exactly the buffered yaps are emitted to that CLI as individual
`yap` envelopes in buffer (ascending) order, and the buffer is left empty
with its timer cleared. -/
theorem c8_yap_buffer_sort_cap_flush (r : RouterState) (cliId : String)
    (yap : YapMessage) (now : Int) :
    ((mapGet (bufferYap r cliId yap now).yapBuffers cliId).map YapBuffer.messages =
        some (capYapMessages (sortYapsByTs
          (((mapGet r.yapBuffers cliId).getD { messages := [], lastFlush := now }).messages
            ++ [yap]))) ∧
      mapGet (bufferYap r cliId yap now).yapFlushTimers cliId = some r.yapBufferMs) ∧
    (∀ l : List YapMessage,
      List.Pairwise yapTsLe (capYapMessages (sortYapsByTs l)) ∧
      (capYapMessages (sortYapsByTs l)).length ≤ 50 ∧
      List.Perm (sortYapsByTs l) l ∧
      ∃ dropped, dropped ++ capYapMessages (sortYapsByTs l) = sortYapsByTs l ∧
        ∀ d ∈ dropped, ∀ k ∈ capYapMessages (sortYapsByTs l), yapTsLe d k) ∧
    (∀ (clients : List (String × ClientInfo)) (src cid : String) (cinfo : ClientInfo),
      (clients.map Prod.fst).Nodup → (cid, cinfo) ∈ clients →
      cinfo.type = ClientType.cli →
      (mapGet (routeYap r yap src clients now).yapBuffers cid).map YapBuffer.messages =
        some (capYapMessages (sortYapsByTs
          (((mapGet r.yapBuffers cid).getD { messages := [], lastFlush := now }).messages
            ++ [{ yap with sourceClientId := some src }]))) ∧
      mapGet (routeYap r yap src clients now).yapFlushTimers cid = some r.yapBufferMs) ∧
    (∀ buf2, mapGet r.yapBuffers cliId = some buf2 → buf2.messages ≠ [] →
      flushYapBuffer r cliId now =
        ({ r with
           yapBuffers := mapSet r.yapBuffers cliId { messages := [], lastFlush := now },
           yapFlushTimers := mapDelete r.yapFlushTimers cliId },
         [RouterEvent.flushYaps cliId buf2.messages])) ∧
    (∀ (st : BrokerState) (buf2 : YapBuffer) (cinfo : ClientInfo),
      mapGet st.router.yapBuffers cliId = some buf2 → buf2.messages ≠ [] →
      mapGet st.clients cliId = some cinfo → cinfo.type = ClientType.cli →
      (fireYapFlushTimer st cliId now).2 =
        buf2.messages.map (fun y => BrokerOutput.sendMsg cliId (yapEnvelope now y)) ∧
      mapGet (fireYapFlushTimer st cliId now).1.router.yapBuffers cliId =
        some { messages := [], lastFlush := now } ∧
      mapGet (fireYapFlushTimer st cliId now).1.router.yapFlushTimers cliId = none) := by
  have hflush : ∀ (r2 : RouterState) (buf2 : YapBuffer),
      mapGet r2.yapBuffers cliId = some buf2 → buf2.messages ≠ [] →
      flushYapBuffer r2 cliId now =
        ({ r2 with
           yapBuffers := mapSet r2.yapBuffers cliId { messages := [], lastFlush := now },
           yapFlushTimers := mapDelete r2.yapFlushTimers cliId },
         [RouterEvent.flushYaps cliId buf2.messages]) := by
    intro r2 buf2 hb hne
    have hie : buf2.messages.isEmpty = false := by
      cases hm : buf2.messages with
      | nil => exact absurd hm hne
      | cons a l => rfl
    unfold flushYapBuffer
    rw [hb]
    simp [hie]
  refine ⟨bufferYap_self r cliId yap now, ?_, ?_, hflush r, ?_⟩
  · intro l
    refine ⟨capYapMessages_pairwise _ (sortYapsByTs_pairwise l),
      capYapMessages_length _, sortYapsByTs_perm l,
      capYapMessages_drops_oldest _ (sortYapsByTs_pairwise l)⟩
  · intro clients src cid cinfo hnd hmem htype
    unfold routeYap
    have hmem2 : (cid, cinfo) ∈ clients.filter (fun p => p.2.type = ClientType.cli) :=
      List.mem_filter.mpr ⟨hmem, by simp [htype]⟩
    have hnd2 : ((clients.filter (fun p => p.2.type = ClientType.cli)).map Prod.fst).Nodup :=
      hnd.sublist ((List.filter_sublist clients).map Prod.fst)
    exact foldlBufferYap_mem { yap with sourceClientId := some src } now cid cinfo
      (clients.filter (fun p => p.2.type = ClientType.cli)) r hnd2 hmem2
  · intro st buf2 cinfo hb hne hc htype
    have hf := hflush st.router buf2 hb hne
    have houts : (fireYapFlushTimer st cliId now).2 =
        (buf2.messages.map (fun y =>
          sendToCli st.clients cliId (yapEnvelope now y))).flatten := by
      unfold fireYapFlushTimer
      rw [hf]
    have hst : (fireYapFlushTimer st cliId now).1.router =
        { st.router with
          yapBuffers := mapSet st.router.yapBuffers cliId { messages := [], lastFlush := now },
          yapFlushTimers := mapDelete st.router.yapFlushTimers cliId } := by
      unfold fireYapFlushTimer
      rw [hf]
    refine ⟨?_, ?_, ?_⟩
    · rw [houts,
        List.map_congr_left (fun y _ =>
          sendToCli_registered st.clients cliId (yapEnvelope now y) cinfo hc htype),
        flatten_map_singleton]
    · rw [hst]
      exact mapGet_mapSet_self _ _ _
    · rw [hst]
      exact mapGet_mapDelete_self _ _

/-- Witness for C8: one yap routed to the two-consumer broker lands in
consumer `c1`'s buffer with the timer armed, and a later flush of a loaded
buffer emits exactly the buffered yap as one envelope and clears the state. -/
theorem c8_yap_buffer_witness :
    (stTwoClis.clients.map Prod.fst).Nodup ∧
    ("c1", { id := "c1", type := ClientType.cli, lastSeen := 1000 }) ∈ stTwoClis.clients ∧
    (mapGet (routeYap routerInit exYapA "p1" stTwoClis.clients 0).yapBuffers "c1").map
        YapBuffer.messages =
      some (capYapMessages (sortYapsByTs
        (((mapGet routerInit.yapBuffers "c1").getD
            { messages := [], lastFlush := 0 }).messages
          ++ [{ exYapA with sourceClientId := some "p1" }]))) ∧
    (fireYapFlushTimer
        { clients := stTwoClis.clients,
          router := { routerInit with
                      yapBuffers := [("c1", { messages := [exYapA], lastFlush := 5 })],
                      yapFlushTimers := [("c1", 200)] } } "c1" 7).2 =
      [BrokerOutput.sendMsg "c1" (yapEnvelope 7 exYapA)] := by
  refine ⟨by decide, by decide, ?_, ?_⟩
  · exact ((c8_yap_buffer_sort_cap_flush routerInit "c1" exYapA 0).2.2.1
      stTwoClis.clients "p1" "c1" { id := "c1", type := ClientType.cli, lastSeen := 1000 }
      (by decide) (by decide) rfl).1
  · exact ((c8_yap_buffer_sort_cap_flush
        { routerInit with
          yapBuffers := [("c1", { messages := [exYapA], lastFlush := 5 })],
          yapFlushTimers := [("c1", 200)] } "c1" exYapA 7).2.2.2.2
      { clients := stTwoClis.clients,
        router := { routerInit with
                    yapBuffers := [("c1", { messages := [exYapA], lastFlush := 5 })],
                    yapFlushTimers := [("c1", 200)] } }
      { messages := [exYapA], lastFlush := 5 }
      { id := "c1", type := ClientType.cli, lastSeen := 1000 }
      rfl (by decide) rfl rfl).1
